import Mathlib

/-!
Shallow embedding of the CNN training core (layers, orchestrator, training
loop) of the `ml` C++ code base, together with theorems settling the frozen
claims about it.

Doubles are modelled as rationals (`ℚ`); `std::vector<double>` as `List ℚ`.
Every in-place C++ loop that writes `v[i] = ...` is modelled by an explicit
index recursion (`updLoop`) over `List.set`, and every accumulating loop
`sum += ...` by `accLoop`, so the Lean functions follow the C++ statement by
statement.  Operations that in C++ return `bool` and mutate `this` are
modelled as functions returning `Bool × State`.
-/

namespace ml

/-- `Matrix1d` = `std::vector<double>`. -/
abbrev Matrix1d := List ℚ

/-- `Matrix2d` = `std::vector<std::vector<double>>`. -/
abbrev Matrix2d := List (List ℚ)

/-- `Matrix3d` = `std::vector<Matrix2d>`. -/
abbrev Matrix3d := List Matrix2d

/-- `TrainOrderList` = `std::vector<std::size_t>`. -/
abbrev TrainOrderList := List Nat

/-- `ml::matchDimensions` (utils.cpp): true iff `expectedSize == actualSize`
(the error-message printing is ignored by the embedding). -/
def matchDimensions (expectedSize actualSize : Nat) : Bool :=
  expectedSize == actualSize

/-- `ml::isMatrixSquare` (utils.cpp): every row of the matrix has the same
length as the matrix itself. -/
def isMatrixSquare (matrix : Matrix2d) : Bool :=
  matrix.all fun row => row.length == matrix.length

/-- `ml::checkLearningRate` (utils.cpp): false iff `0.0 >= learningRate`. -/
def checkLearningRate (learningRate : ℚ) : Bool :=
  if 0 ≥ learningRate then false else true

/-- Index-recursion model of a C++ loop `for (i = 0; i < n; ++i) v[i] = f(i, v[i])`:
`updLoop d f n l` applies the writes for `i = 0, …, n-1` in order, where `f`
receives the current value of the cell being written (`d` is the out-of-range
default, irrelevant whenever `n ≤ l.length`). -/
def updLoop (d : α) (f : Nat → α → α) : Nat → List α → List α
  | 0, l => l
  | n + 1, l =>
    let lp := updLoop d f n l
    lp.set n (f n (lp.getD n d))

/-- Accumulation model of a C++ loop `for (j = 0; j < n; ++j) sum += f(j)`
starting from `sum = init`. -/
def accLoop (f : Nat → ℚ) : Nat → ℚ → ℚ
  | 0, init => init
  | n + 1, init => accLoop f n init + f n

/-- `ml::act_func::Interface`: a stateless scalar activation function with an
output and a derivative.  The concrete variants (`None`, `Relu`, `Tanh`) are
injected collaborators; the dense-layer claims treat the bound activation
function abstractly, so it is modelled as a pair of functions. -/
structure ActFunc where
  out : ℚ → ℚ
  delta : ℚ → ℚ

/-- `ml::dense_layer::Dense` (dense.cpp): the five data members, in
declaration order.  `myActFunc` is the bound activation function. -/
structure Dense where
  myInputGradients : Matrix1d
  myBias : Matrix1d
  myWeights : Matrix2d
  myOutput : Matrix1d
  myActFunc : ActFunc

/-- `Dense::inputSize`: `myWeights.empty() ? 0 : myWeights[0].size()`. -/
def Dense.inputSize (d : Dense) : Nat :=
  match d.myWeights with
  | [] => 0
  | row :: _ => row.length

/-- `Dense::outputSize`: `myOutput.size()`. -/
def Dense.outputSize (d : Dense) : Nat := d.myOutput.length

/-- `Dense::feedforward(input)`: dimension check, then for each node `i`,
`myOutput[i] = myActFunc->output(myBias[i] + Σ_j myWeights[i][j] * input[j])`.
Returns the C++ `bool` together with the layer state after the call. -/
def Dense.feedforward (d : Dense) (input : Matrix1d) : Bool × Dense :=
  if matchDimensions d.inputSize input.length then
    (true,
      { d with
        myOutput :=
          updLoop 0
            (fun i _ =>
              d.myActFunc.out
                (accLoop (fun j => (d.myWeights.getD i []).getD j 0 * input.getD j 0)
                  d.inputSize (d.myBias.getD i 0)))
            d.outputSize d.myOutput })
  else (false, d)

/-- `Dense::backpropagate(const std::vector<double>&)` — the output-layer
overload: dimension check, then for each node `i`,
`myInputGradients[i] = (outputGradients[i] - myOutput[i]) * myActFunc->delta(myOutput[i])`. -/
def Dense.backpropagate (d : Dense) (outputGradients : Matrix1d) : Bool × Dense :=
  if matchDimensions d.outputSize outputGradients.length then
    (true,
      { d with
        myInputGradients :=
          updLoop 0
            (fun i _ =>
              (outputGradients.getD i 0 - d.myOutput.getD i 0) *
                d.myActFunc.delta (d.myOutput.getD i 0))
            d.outputSize d.myInputGradients })
  else (false, d)

/-- `Dense::backpropagate(const Interface&)` — the hidden-layer overload:
requires `outputSize() == nextLayer.inputSize()`; for each node `i`,
`myInputGradients[i] = (Σ_j nextLayer.inputGradients()[j] * nextLayer.weights()[j][i]) * myActFunc->delta(myOutput[i])`,
`j` ranging over `nextLayer.outputSize()`. -/
def Dense.backpropagateHidden (d : Dense) (nextLayer : Dense) : Bool × Dense :=
  if matchDimensions d.outputSize nextLayer.inputSize then
    (true,
      { d with
        myInputGradients :=
          updLoop 0
            (fun i _ =>
              accLoop
                (fun j =>
                  nextLayer.myInputGradients.getD j 0 *
                    (nextLayer.myWeights.getD j []).getD i 0)
                nextLayer.outputSize 0 *
                d.myActFunc.delta (d.myOutput.getD i 0))
            d.outputSize d.myInputGradients })
  else (false, d)

/-- The body of the `Dense::optimize` node loop, iterated for
`i = 0, …, n-1`: `myBias[i] += myInputGradients[i] * learningRate` and, for
each `j < inputSize`, `myWeights[i][j] += myInputGradients[i] * learningRate * input[j]`. -/
def optLoop (gradients : Matrix1d) (learningRate : ℚ) (input : Matrix1d)
    (inputSize : Nat) : Nat → Matrix1d × Matrix2d → Matrix1d × Matrix2d
  | 0, s => s
  | i + 1, s =>
    let sp := optLoop gradients learningRate input inputSize i s
    (sp.1.set i (sp.1.getD i 0 + gradients.getD i 0 * learningRate),
      sp.2.set i
        (updLoop 0
          (fun j w => w + gradients.getD i 0 * learningRate * input.getD j 0)
          inputSize (sp.2.getD i [])))

/-- `Dense::optimize(input, learningRate)`: dimension and learning-rate
checks, then the bias/weight update loop over all nodes. -/
def Dense.optimize (d : Dense) (input : Matrix1d) (learningRate : ℚ) : Bool × Dense :=
  if matchDimensions d.inputSize input.length && checkLearningRate learningRate then
    let s := optLoop d.myInputGradients learningRate input d.inputSize d.outputSize
      (d.myBias, d.myWeights)
    (true, { d with myBias := s.1, myWeights := s.2 })
  else (false, d)

/-- Well-formedness established by the `Dense` constructor
(`Dense::initialize`): `myOutput`, `myInputGradients` and `myBias` have
`outputSize` entries, and `myWeights` is an `outputSize × inputSize` matrix. -/
def Dense.WF (d : Dense) : Prop :=
  d.myBias.length = d.outputSize ∧
  d.myInputGradients.length = d.outputSize ∧
  d.myWeights.length = d.outputSize ∧
  ∀ row ∈ d.myWeights, row.length = d.inputSize

instance (d : Dense) : Decidable d.WF := by
  unfold Dense.WF; infer_instance

/-- `ml::act_func::None`: identity output, derivative constantly 1.  Used as
the concrete activation function of the witness layers. -/
def actNone : ActFunc where
  out := fun input => input
  delta := fun _ => 1

/-- A concrete well-formed dense layer (2 inputs, 1 output node) used by the
witness theorems. -/
def sampleDense : Dense where
  myInputGradients := [0]
  myBias := [1]
  myWeights := [[2, 3]]
  myOutput := [0]
  myActFunc := actNone

/-- A concrete 1-input, 1-output dense layer acting as the downstream layer of
`sampleDense` in the C3 witness. -/
def sampleNext : Dense where
  myInputGradients := [2]
  myBias := [0]
  myWeights := [[3]]
  myOutput := [0]
  myActFunc := actNone

/-- `ml::flatten_layer::stub::Flatten`: the data members `myInputGradients`
(an `inputSize × inputSize` matrix) and `myOutput` (a vector of
`inputSize²` zeros).  The stub never writes either member after
construction. -/
structure Flatten where
  myInputGradients : Matrix2d
  myOutput : Matrix1d
  deriving DecidableEq

/-- `Flatten::inputSize`: `myInputGradients.size()`. -/
def Flatten.inputSize (f : Flatten) : Nat := f.myInputGradients.length

/-- `Flatten::outputSize`: `myOutput.size()`. -/
def Flatten.outputSize (f : Flatten) : Nat := f.myOutput.length

/-- `Flatten::feedforward(input)` (stub): returns the result of the dimension
and squareness checks; no member is written. -/
def Flatten.feedforward (f : Flatten) (input : Matrix2d) : Bool × Flatten :=
  (matchDimensions f.myInputGradients.length input.length && isMatrixSquare input, f)

/-- `Flatten::backpropagate(outputGradients)` (stub): returns the result of
the dimension check against `myOutput.size()`; no member is written. -/
def Flatten.backpropagate (f : Flatten) (outputGradients : Matrix1d) : Bool × Flatten :=
  (matchDimensions f.myOutput.length outputGradients.length, f)

/-- The `Flatten` constructor: rejects `inputSize == 0`, otherwise zeroes
`myInputGradients` (an `inputSize × inputSize` matrix) and `myOutput`
(`inputSize * inputSize` entries). -/
def Flatten.create (inputSize : Nat) : Option Flatten :=
  if inputSize = 0 then none
  else
    some
      { myInputGradients := List.replicate inputSize (List.replicate inputSize 0)
        myOutput := List.replicate (inputSize * inputSize) 0 }

/-- `ml::conv_layer::stub::Conv`: data members `myInputGradients`, `myKernel`,
`myOutput`, all square zero matrices after construction and never written. -/
structure Conv where
  myInputGradients : Matrix2d
  myKernel : Matrix2d
  myOutput : Matrix2d
  deriving DecidableEq

/-- `Conv::inputSize`: `myInputGradients.size()`. -/
def Conv.inputSize (c : Conv) : Nat := c.myInputGradients.length

/-- `Conv::outputSize`: `myOutput.size()`. -/
def Conv.outputSize (c : Conv) : Nat := c.myOutput.length

/-- `Conv::feedforward(input)` (stub): checks the input size against
`myOutput.size()` and that the input is square; no member is written. -/
def Conv.feedforward (c : Conv) (input : Matrix2d) : Bool × Conv :=
  (matchDimensions c.myOutput.length input.length && isMatrixSquare input, c)

/-- `Conv::backpropagate(outputGradients)` (stub): checks the gradient size
against `myOutput.size()` and squareness; no member is written. -/
def Conv.backpropagate (c : Conv) (outputGradients : Matrix2d) : Bool × Conv :=
  (matchDimensions c.myOutput.length outputGradients.length &&
    isMatrixSquare outputGradients, c)

/-- `Conv::optimize(learningRate)` (stub): returns `checkLearningRate`. -/
def Conv.optimize (c : Conv) (learningRate : ℚ) : Bool × Conv :=
  (checkLearningRate learningRate, c)

/-- The `Conv` constructor: kernel size must lie in `[1, 11]` and not exceed
the input size; matrices are zeroed. -/
def Conv.create (inputSize kernelSize : Nat) : Option Conv :=
  if 1 > kernelSize ∨ 11 < kernelSize then none
  else if inputSize < kernelSize then none
  else
    some
      { myInputGradients := List.replicate inputSize (List.replicate inputSize 0)
        myKernel := List.replicate kernelSize (List.replicate kernelSize 0)
        myOutput := List.replicate inputSize (List.replicate inputSize 0) }

/-- `ml::conv_layer::stub::MaxPool`: data members `myInput`,
`myInputGradients` (both `inputSize`-square) and `myOutput`
(`inputSize / poolSize`-square), never written after construction. -/
structure MaxPool where
  myInput : Matrix2d
  myInputGradients : Matrix2d
  myOutput : Matrix2d
  deriving DecidableEq

/-- `MaxPool::inputSize`: `myInputGradients.size()`. -/
def MaxPool.inputSize (p : MaxPool) : Nat := p.myInputGradients.length

/-- `MaxPool::outputSize`: `myOutput.size()`. -/
def MaxPool.outputSize (p : MaxPool) : Nat := p.myOutput.length

/-- `MaxPool::feedforward(input)` (stub): checks the input size against
`myInput.size()` and squareness; no member is written. -/
def MaxPool.feedforward (p : MaxPool) (input : Matrix2d) : Bool × MaxPool :=
  (matchDimensions p.myInput.length input.length && isMatrixSquare input, p)

/-- `MaxPool::backpropagate(outputGradients)` (stub): checks the gradient size
against `myOutput.size()` and squareness; no member is written. -/
def MaxPool.backpropagate (p : MaxPool) (outputGradients : Matrix2d) : Bool × MaxPool :=
  (matchDimensions p.myOutput.length outputGradients.length &&
    isMatrixSquare outputGradients, p)

/-- `MaxPool::optimize(learningRate)` (stub): ignores the learning rate and
returns true unconditionally. -/
def MaxPool.optimize (p : MaxPool) (_learningRate : ℚ) : Bool × MaxPool :=
  (true, p)

/-- The `MaxPool` constructor: input and pool size must be nonzero, the pool
size must not exceed the input size and must divide it evenly; matrices are
zeroed, the output being `inputSize / poolSize` wide. -/
def MaxPool.create (inputSize poolSize : Nat) : Option MaxPool :=
  if inputSize = 0 then none
  else if poolSize = 0 then none
  else if inputSize < poolSize then none
  else if inputSize % poolSize ≠ 0 then none
  else
    some
      { myInput := List.replicate inputSize (List.replicate inputSize 0)
        myInputGradients := List.replicate inputSize (List.replicate inputSize 0)
        myOutput :=
          List.replicate (inputSize / poolSize)
            (List.replicate (inputSize / poolSize) 0) }

/-- The flatten layer produced by `Flatten::create(2)`, used by the witness
and counterexample theorems. -/
def sampleFlatten : Flatten where
  myInputGradients := [[0, 0], [0, 0]]
  myOutput := [0, 0, 0, 0]

/-- The max-pooling layer produced by `MaxPool::create(2, 2)`. -/
def sampleMaxPool : MaxPool where
  myInput := [[0, 0], [0, 0]]
  myInputGradients := [[0, 0], [0, 0]]
  myOutput := [[0]]

/-- The convolutional layer produced by `Conv::create(2, 2)`. -/
def sampleConv : Conv where
  myInputGradients := [[0, 0], [0, 0]]
  myKernel := [[0, 0], [0, 0]]
  myOutput := [[0, 0], [0, 0]]

/-- The process-wide random generator (`ml::random::Generator`), modelled as
an infinite stream of raw `std::rand()` draws together with a cursor. -/
structure Rng where
  stream : Nat → Nat
  cursor : Nat

/-- One raw `std::rand()` call. -/
def Rng.next (r : Rng) : Nat × Rng :=
  (r.stream r.cursor, { r with cursor := r.cursor + 1 })

/-- `Generator::uint32(maxExclusive)`: `std::rand() % maxExclusive`. -/
def Rng.uint32 (r : Rng) (maxExclusive : Nat) : Nat × Rng :=
  let (d, rp) := r.next
  (d % maxExclusive, rp)

/-- `ml::createTrainOrderList` (utils.cpp): allocate `trainSetCount` entries
(zero-initialized by the `std::vector` constructor), then the loop
`list[i] = i` for every index. -/
def createTrainOrderList (trainSetCount : Nat) : TrainOrderList :=
  updLoop 0 (fun i _ => i) trainSetCount (List.replicate trainSetCount 0)

/-- The body of the `ml::shuffleTrainOrderList` loop for indices
`0, …, n-1` applied in ascending order: at step `i`, draw
`r = uint32(list.size())` and swap `list[i]` with `list[r]`. -/
def shuffleGo : Nat → TrainOrderList → Rng → TrainOrderList × Rng
  | 0, list, r => (list, r)
  | i + 1, list, r =>
    let s := shuffleGo i list r
    let d := s.2.uint32 s.1.length
    (((s.1.set i (s.1.getD d.1 0)).set d.1 (s.1.getD i 0)), d.2)

/-- `ml::shuffleTrainOrderList` (utils.cpp): run the swap loop over all
`list.size()` positions. -/
def shuffleTrainOrderList (list : TrainOrderList) (r : Rng) : TrainOrderList × Rng :=
  shuffleGo list.length list r

/-- `Generator::float64(0.0, 1.0)` as used by `ml::randomStartVal`:
`(std::rand() / RAND_MAX) * (max - min) + min` with `min = 0`, `max = 1` and
`RAND_MAX = 2147483647`. -/
def randomStartVal (r : Rng) : ℚ × Rng :=
  let d := r.next
  ((d.1 : ℚ) / 2147483647, d.2)

/-- Draw one weight row of `n` random starting values, left to right. -/
def drawRow : Nat → Rng → Matrix1d × Rng
  | 0, r => ([], r)
  | n + 1, r =>
    let v := randomStartVal r
    let rest := drawRow n v.2
    (v.1 :: rest.1, rest.2)

/-- The fill loop of `Dense::initialize`: for each node `i` in order, draw
`myBias[i]`, then the weights `myWeights[i][0..inputSize)`. -/
def denseFill : Nat → Nat → Rng → Matrix1d × Matrix2d × Rng
  | 0, _, r => ([], [], r)
  | m + 1, inputSize, r =>
    let b := randomStartVal r
    let row := drawRow inputSize b.2
    let rest := denseFill m inputSize row.2
    (b.1 :: rest.1, row.1 :: rest.2.1, rest.2.2)

/-- The `Dense` constructor: rejects a zero output or input size, zeroes
`myOutput` and `myInputGradients`, and fills bias and weights with random
starting values drawn from the generator. -/
def Dense.create (inputSize outputSize : Nat) (actFunc : ActFunc) (r : Rng) :
    Option (Dense × Rng) :=
  if outputSize = 0 then none
  else if inputSize = 0 then none
  else
    let fill := denseFill outputSize inputSize r
    some
      ({ myInputGradients := List.replicate outputSize 0
         myBias := fill.1
         myWeights := fill.2.1
         myOutput := List.replicate outputSize 0
         myActFunc := actFunc }, fill.2.2)

/-- `ml::cnn::Cnn`: the constructor fills `myConvLayers` with exactly one
convolutional layer followed by one max-pooling layer, one flatten layer and
a nonempty list of dense layers (one from the constructor, more via
`addDenseLayer`), so the heterogeneous `myConvLayers` vector is embedded as
the pair of its two concrete members. -/
structure Cnn where
  myConvLayer : Conv
  myPoolLayer : MaxPool
  myFlattenLayer : Flatten
  myDenseLayers : List Dense

instance : Inhabited Dense :=
  ⟨{ myInputGradients := [], myBias := [], myWeights := [], myOutput := [],
     myActFunc := actNone }⟩

/-- `Cnn::inputSize`: `myConvLayers[0]->inputSize()`. -/
def Cnn.inputSize (c : Cnn) : Nat := c.myConvLayer.inputSize

/-- `Cnn::output`: the output of the last dense layer. -/
def Cnn.output (c : Cnn) : Matrix1d :=
  match c.myDenseLayers.getLast? with
  | some d => d.myOutput
  | none => []

/-- `Cnn::convOutput`: the output of the last layer of the convolutional
stack, i.e. the max-pooling layer. -/
def Cnn.convOutput (c : Cnn) : Matrix2d := c.myPoolLayer.myOutput

/-- The dense part of `Cnn::feedforward`: run `feedforward` on every dense
layer in order, each consuming the previous (already updated) layer's
output; the C++ accumulates success with `&=`, so every layer runs even
after a failure. -/
def ffDenseChain (input : Matrix1d) : List Dense → Bool × List Dense
  | [] => (true, [])
  | d :: rest =>
    let s := d.feedforward input
    let t := ffDenseChain s.2.myOutput rest
    (s.1 && t.1, s.2 :: t.2)

/-- `Cnn::feedforward`: convolution stack in order (failure short-circuits
after the stack), then the flatten layer on the stack's output, then the
dense chain.  The stub conv/pool/flatten layers never mutate, so only the
dense layers change. -/
def Cnn.feedforward (c : Cnn) (input : Matrix2d) : Bool × Cnn :=
  let s1 := c.myConvLayer.feedforward input
  let s2 := c.myPoolLayer.feedforward c.myConvLayer.myOutput
  if !(s1.1 && s2.1) then (false, c)
  else
    let sF := c.myFlattenLayer.feedforward c.convOutput
    if !sF.1 then (false, c)
    else
      let sD := ffDenseChain c.myFlattenLayer.myOutput c.myDenseLayers
      (sD.1, { c with myDenseLayers := sD.2 })

/-- `Cnn::predict`: runs `feedforward` (discarding its boolean result) and
returns `output()`, the last dense layer's stored output, together with the
network state after the call. -/
def Cnn.predict (c : Cnn) (input : Matrix2d) : Matrix1d × Cnn :=
  let s := c.feedforward input
  (s.2.output, s.2)

/-- The dense part of `Cnn::backpropagate`: the last layer backpropagates
against the target vector, every earlier layer against its (already
updated) successor's `inputGradients()` — a `Matrix1d`, so C++ overload
resolution selects the output-layer `backpropagate(const Matrix1d&)`
overload for hidden layers as well.  All layers run (`&=`). -/
def bpDenseChain (target : Matrix1d) : List Dense → Bool × List Dense
  | [] => (true, [])
  | [d] =>
    let s := d.backpropagate target
    (s.1, [s.2])
  | d :: next :: rest =>
    let s := bpDenseChain target (next :: rest)
    let hd := d.backpropagate (s.2.headD d).myInputGradients
    (hd.1 && s.1, hd.2 :: s.2)

/-- `Cnn::backpropagate`: dense layers in reverse order, then the flatten
layer on the first dense layer's input gradients, then the convolutional
stack in reverse order on the flatten layer's (stored) input gradients. -/
def Cnn.backpropagate (c : Cnn) (output : Matrix1d) : Bool × Cnn :=
  let sD := bpDenseChain output c.myDenseLayers
  let cp : Cnn := { c with myDenseLayers := sD.2 }
  if !sD.1 then (false, cp)
  else
    let sF := c.myFlattenLayer.backpropagate
      (sD.2.headD default).myInputGradients
    if !sF.1 then (false, cp)
    else
      let sP := c.myPoolLayer.backpropagate c.myFlattenLayer.myInputGradients
      let sC := c.myConvLayer.backpropagate c.myPoolLayer.myInputGradients
      (sP.1 && sC.1, cp)

/-- The dense part of `Cnn::optimize`: the first dense layer consumes the
flatten layer's output, each later one its predecessor's output.  All layers
run (`&=`). -/
def optDenseChain (input : Matrix1d) (learningRate : ℚ) :
    List Dense → Bool × List Dense
  | [] => (true, [])
  | d :: rest =>
    let s := d.optimize input learningRate
    let t := optDenseChain s.2.myOutput learningRate rest
    (s.1 && t.1, s.2 :: t.2)

/-- `Cnn::optimize`: convolutional stack in forward order (failure
short-circuits after the stack), then the dense chain. -/
def Cnn.optimize (c : Cnn) (learningRate : ℚ) : Bool × Cnn :=
  let s1 := c.myConvLayer.optimize learningRate
  let s2 := c.myPoolLayer.optimize learningRate
  if !(s1.1 && s2.1) then (false, c)
  else
    let sD := optDenseChain c.myFlattenLayer.myOutput learningRate c.myDenseLayers
    (sD.1, { c with myDenseLayers := sD.2 })

/-- One training step of `Cnn::train` on example `j`:
`feedforward(trainIn[j]) && backpropagate(trainOut[j]) && optimize(learningRate)`,
with C++ short-circuit evaluation. -/
def stepResult (trainIn : Matrix3d) (trainOut : Matrix2d) (learningRate : ℚ)
    (c : Cnn) (j : Nat) : Bool × Cnn :=
  let f := c.feedforward (trainIn.getD j [])
  if !f.1 then (false, f.2)
  else
    let b := f.2.backpropagate (trainOut.getD j [])
    if !b.1 then (false, b.2)
    else b.2.optimize learningRate

/-- The inner loop of `Cnn::train` over one (shuffled) training order:
executes the steps in order and returns false at the first failing step,
leaving the remaining examples unprocessed. -/
def runExamples (trainIn : Matrix3d) (trainOut : Matrix2d) (learningRate : ℚ) :
    List Nat → Cnn → Bool × Cnn
  | [], c => (true, c)
  | j :: rest, c =>
    let s := stepResult trainIn trainOut learningRate c j
    if s.1 then runExamples trainIn trainOut learningRate rest s.2
    else (false, s.2)

/-- The epoch loop of `Cnn::train`: per epoch, reshuffle the training order,
then run the examples; a failing step aborts the whole call. -/
def trainLoop (trainIn : Matrix3d) (trainOut : Matrix2d) (learningRate : ℚ) :
    Nat → TrainOrderList → Cnn → Rng → Bool × Cnn × Rng
  | 0, _, c, r => (true, c, r)
  | e + 1, order, c, r =>
    let sh := shuffleTrainOrderList order r
    let s := runExamples trainIn trainOut learningRate sh.1 c
    if s.1 then trainLoop trainIn trainOut learningRate e sh.1 s.2 sh.2
    else (false, s.2, sh.2)

/-- `Cnn::train`: the entry validations of learning rate, epoch count and
set count only print diagnostics in the C++ code — they do not return — so
the embedding proceeds directly to the loop.  `setCount` is the minimum of
the two example-list lengths. -/
def Cnn.train (c : Cnn) (trainIn : Matrix3d) (trainOut : Matrix2d)
    (epochCount : Nat) (learningRate : ℚ) (r : Rng) : Bool × Cnn × Rng :=
  trainLoop trainIn trainOut learningRate epochCount
    (createTrainOrderList (min trainIn.length trainOut.length)) c r

/-- The flat sequence of example indices that the epoch loop executes:
each epoch contributes its freshly shuffled order. -/
def scheduleGo : Nat → TrainOrderList → Rng → List Nat × TrainOrderList × Rng
  | 0, order, r => ([], order, r)
  | e + 1, order, r =>
    let sh := shuffleTrainOrderList order r
    let s := scheduleGo e sh.1 sh.2
    (sh.1 ++ s.1, s.2.1, s.2.2)

/-- The full execution schedule of a `train` call: the concatenation of the
per-epoch shuffled training orders, determined by the training-set count,
the epoch count and the random stream alone. -/
def trainSchedule (trainIn : Matrix3d) (trainOut : Matrix2d)
    (epochCount : Nat) (r : Rng) : List Nat :=
  (scheduleGo epochCount
    (createTrainOrderList (min trainIn.length trainOut.length)) r).1

/-- Chained well-formedness of a dense pipeline fed by a vector of length
`n`: each layer is well-formed, its input size matches what it is fed, and
its output feeds the rest. -/
def denseChainWF : Nat → List Dense → Prop
  | _, [] => True
  | n, d :: rest => d.WF ∧ d.inputSize = n ∧ denseChainWF d.outputSize rest

instance denseChainWF.instDecidable : (n : Nat) → (ds : List Dense) →
    Decidable (denseChainWF n ds)
  | _, [] => isTrue trivial
  | n, d :: rest =>
    have : Decidable (denseChainWF d.outputSize rest) :=
      denseChainWF.instDecidable d.outputSize rest
    by unfold denseChainWF; infer_instance

/-- Well-formedness established by the `Cnn` constructor: the conv stub's
matrices are square and of equal size, the pool layer consumes the conv
layer's output, the flatten layer consumes the pool layer's square output,
and a nonempty dense chain consumes the flatten layer's stored output. -/
def Cnn.WF (c : Cnn) : Prop :=
  isMatrixSquare c.myConvLayer.myOutput = true ∧
  c.myConvLayer.myOutput.length = c.myConvLayer.myInputGradients.length ∧
  c.myPoolLayer.myInput.length = c.myConvLayer.myOutput.length ∧
  isMatrixSquare c.myPoolLayer.myOutput = true ∧
  c.myFlattenLayer.myInputGradients.length = c.myPoolLayer.myOutput.length ∧
  0 < c.myDenseLayers.length ∧
  denseChainWF c.myFlattenLayer.myOutput.length c.myDenseLayers

instance (c : Cnn) : Decidable c.WF := by
  unfold Cnn.WF; infer_instance

/-- The `Cnn` constructor: conv layer on `convInput`/`convKernel`, pooling
layer on the conv layer's output size, flatten layer on the (now final)
stack output size, and one dense layer from the flatten output size to
`denseOutput`.  The conv stub ignores its activation function. -/
def Cnn.create (convInput convKernel : Nat) (poolSize denseOutput : Nat)
    (denseFunc : ActFunc) (r : Rng) : Option (Cnn × Rng) :=
  (Conv.create convInput convKernel).bind fun conv =>
    (MaxPool.create conv.outputSize poolSize).bind fun pool =>
      (Flatten.create pool.outputSize).bind fun flat =>
        (Dense.create flat.outputSize denseOutput denseFunc r).map fun dr =>
          ({ myConvLayer := conv, myPoolLayer := pool,
             myFlattenLayer := flat, myDenseLayers := [dr.1] }, dr.2)

/-- The flatten layer produced by `Flatten::create(1)`, as built inside
`sampleCnn`. -/
def sampleFlatten1 : Flatten where
  myInputGradients := [[0]]
  myOutput := [0]

/-- A concrete well-formed network: conv input 2, pool size 2 (stack output
1×1), flatten size 1, one dense layer with one input and one output node. -/
def sampleCnn : Cnn where
  myConvLayer := sampleConv
  myPoolLayer := sampleMaxPool
  myFlattenLayer := sampleFlatten1
  myDenseLayers := [sampleNext]

/-- A concrete random source for the constructor witness. -/
def cnnStream : Rng where
  stream := fun _ => 0
  cursor := 0

/-- The network built by the `Cnn` constructor with conv input 2, kernel 2,
pool size 2, one dense output node, drawing from `cnnStream`. -/
def createdCnn : Cnn :=
  match Cnn.create 2 2 2 1 actNone cnnStream with
  | some cr => cr.1
  | none => sampleCnn

theorem updLoop_length (d : α) (f : Nat → α → α) (n : Nat) (l : List α) :
    (updLoop d f n l).length = l.length := by
  induction n with
  | zero => rfl
  | succ n ih => simp [updLoop, List.length_set, ih]

theorem getD_set_of_ne (l : List α) (m n : Nat) (a : α) (h : m ≠ n) (d : α) :
    (l.set m a).getD n d = l.getD n d := by
  simp [List.getD, List.getElem?_set_ne h]

theorem getD_set_self (l : List α) (n : Nat) (a : α) (h : n < l.length) (d : α) :
    (l.set n a).getD n d = a := by
  simp [List.getD, List.getElem?_set_self h]

theorem updLoop_getD_of_ge (d e : α) (f : Nat → α → α) (n : Nat) (l : List α)
    (k : Nat) (hk : n ≤ k) : (updLoop d f n l).getD k e = l.getD k e := by
  induction n with
  | zero => rfl
  | succ n ih =>
    rw [updLoop, getD_set_of_ne _ _ _ _ (by omega)]
    exact ih (by omega)

theorem updLoop_getD_of_lt (d : α) (f : Nat → α → α) (n : Nat) (l : List α)
    (k : Nat) (hk : k < n) (hl : k < l.length) :
    (updLoop d f n l).getD k d = f k (l.getD k d) := by
  induction n with
  | zero => omega
  | succ n ih =>
    by_cases hkn : k = n
    · subst hkn
      have hlen : k < (updLoop d f k l).length := by rw [updLoop_length]; exact hl
      rw [updLoop, getD_set_self _ _ _ hlen,
        updLoop_getD_of_ge d d f k l k (Nat.le_refl k)]
    · rw [updLoop, getD_set_of_ne _ _ _ _ (fun h => hkn h.symm)]
      exact ih (by omega)

theorem accLoop_eq_add_sum (f : Nat → ℚ) (n : Nat) (init : ℚ) :
    accLoop f n init = init + ∑ j ∈ Finset.range n, f j := by
  induction n with
  | zero => simp [accLoop]
  | succ n ih => rw [accLoop, ih, Finset.sum_range_succ]; ring

theorem getD_eq_getElem (l : List α) (i : Nat) (h : i < l.length) (d : α) :
    l.getD i d = l[i] := by
  simp [List.getD, List.getElem?_eq_getElem h]

theorem getD_mem (l : List α) (i : Nat) (h : i < l.length) (d : α) :
    l.getD i d ∈ l := by
  rw [getD_eq_getElem l i h]
  exact List.getElem_mem h

theorem eq_replicate_zero_of_getD (l : Matrix1d) (n : Nat) (hlen : l.length = n)
    (h : ∀ i < n, l.getD i 0 = 0) : l = List.replicate n (0 : ℚ) := by
  refine List.eq_replicate_iff.mpr ⟨hlen, fun b hb => ?_⟩
  obtain ⟨i, hi, hbe⟩ := List.mem_iff_getElem.mp hb
  rw [← hbe, ← getD_eq_getElem l i hi 0]
  exact h i (hlen ▸ hi)

/-- C1: for every dense layer and every input vector whose length equals the
layer's `inputSize`, `feedforward` succeeds and sets, for each output node
`i`, `output[i] = activation.output(bias[i] + Σ_j weights[i][j] * input[j])`,
leaving bias, weights and input gradients untouched; if the input length
differs from `inputSize`, `feedforward` returns failure and mutates no layer
state. -/
theorem dense_feedforward_spec (d : Dense) (input : Matrix1d) :
    (input.length = d.inputSize →
      (d.feedforward input).1 = true ∧
      (d.feedforward input).2.myOutput.length = d.outputSize ∧
      (∀ i < d.outputSize,
        (d.feedforward input).2.myOutput.getD i 0 =
          d.myActFunc.out
            (d.myBias.getD i 0 +
              ∑ j ∈ Finset.range d.inputSize,
                (d.myWeights.getD i []).getD j 0 * input.getD j 0)) ∧
      (d.feedforward input).2.myBias = d.myBias ∧
      (d.feedforward input).2.myWeights = d.myWeights ∧
      (d.feedforward input).2.myInputGradients = d.myInputGradients) ∧
    (input.length ≠ d.inputSize → d.feedforward input = (false, d)) := by
  constructor
  · intro h
    have hc : matchDimensions d.inputSize input.length = true := by
      simp [matchDimensions, h]
    simp only [Dense.feedforward, hc, if_true]
    refine ⟨by trivial, updLoop_length _ _ _ _, ?_, by trivial, by trivial, by trivial⟩
    intro i hi
    rw [updLoop_getD_of_lt _ _ _ _ _ hi hi, accLoop_eq_add_sum]
  · intro h
    have hc : matchDimensions d.inputSize input.length = false := by
      simp [matchDimensions]
      exact fun hh => absurd hh.symm h
    simp [Dense.feedforward, hc]

/-- Witness for C1 at the sample layer: the input `[5, 7]` has the right
length and produces output `1 + 2*5 + 3*7 = 32` at node 0, and the too-short
input `[5]` is rejected with the layer unchanged. -/
theorem dense_feedforward_spec_witness :
    (sampleDense.feedforward [5, 7]).1 = true ∧
    (sampleDense.feedforward [5, 7]).2.myOutput.getD 0 0 =
      sampleDense.myActFunc.out
        (sampleDense.myBias.getD 0 0 +
          ∑ j ∈ Finset.range sampleDense.inputSize,
            (sampleDense.myWeights.getD 0 []).getD j 0 *
              ([5, 7] : Matrix1d).getD j 0) ∧
    sampleDense.feedforward [5] = (false, sampleDense) := by
  have h := dense_feedforward_spec sampleDense [5, 7]
  have hlen : ([5, 7] : Matrix1d).length = sampleDense.inputSize := by decide
  have hmis := (dense_feedforward_spec sampleDense [5]).2 (by decide)
  exact ⟨(h.1 hlen).1, (h.1 hlen).2.2.1 0 (by decide), hmis⟩

/-- C2: for every well-formed dense layer and every gradient vector of length
`outputSize`, the output-layer overload of `backpropagate` succeeds and sets
`inputGradients[i] = (outputGradients[i] - output[i]) * activation.delta(output[i])`
for each node `i`, leaving the other members untouched; with
`outputGradients` equal to the stored output the produced input gradients are
all zeros. -/
theorem dense_backpropagate_output_spec (d : Dense) (outputGradients : Matrix1d)
    (hwf : d.WF) :
    (outputGradients.length = d.outputSize →
      (d.backpropagate outputGradients).1 = true ∧
      (d.backpropagate outputGradients).2.myInputGradients.length = d.outputSize ∧
      (∀ i < d.outputSize,
        (d.backpropagate outputGradients).2.myInputGradients.getD i 0 =
          (outputGradients.getD i 0 - d.myOutput.getD i 0) *
            d.myActFunc.delta (d.myOutput.getD i 0)) ∧
      (d.backpropagate outputGradients).2.myBias = d.myBias ∧
      (d.backpropagate outputGradients).2.myWeights = d.myWeights ∧
      (d.backpropagate outputGradients).2.myOutput = d.myOutput) ∧
    (d.backpropagate d.myOutput).2.myInputGradients =
      List.replicate d.outputSize 0 := by
  obtain ⟨-, hgrad, -, -⟩ := hwf
  have main : ∀ g : Matrix1d, g.length = d.outputSize →
      (d.backpropagate g).1 = true ∧
      (d.backpropagate g).2.myInputGradients.length = d.outputSize ∧
      (∀ i < d.outputSize,
        (d.backpropagate g).2.myInputGradients.getD i 0 =
          (g.getD i 0 - d.myOutput.getD i 0) *
            d.myActFunc.delta (d.myOutput.getD i 0)) ∧
      (d.backpropagate g).2.myBias = d.myBias ∧
      (d.backpropagate g).2.myWeights = d.myWeights ∧
      (d.backpropagate g).2.myOutput = d.myOutput := by
    intro g hg
    have hc : matchDimensions d.outputSize g.length = true := by
      simp [matchDimensions, hg]
    simp only [Dense.backpropagate, hc, if_true]
    refine ⟨by trivial, ?_, ?_, by trivial, by trivial, by trivial⟩
    · rw [updLoop_length, hgrad]
    · intro i hi
      rw [updLoop_getD_of_lt _ _ _ _ _ hi (hgrad ▸ hi)]
  refine ⟨main outputGradients, ?_⟩
  have hself := main d.myOutput rfl
  refine eq_replicate_zero_of_getD _ _ hself.2.1 fun i hi => ?_
  rw [hself.2.2.1 i hi]
  ring

/-- Witness for C2 at the sample layer: a gradient vector of matching length
is accepted (gradient `(4 - 0) * 1 = 4` at node 0), and backpropagating the
stored output itself yields the all-zero gradient vector. -/
theorem dense_backpropagate_output_spec_witness :
    (sampleDense.backpropagate [4]).1 = true ∧
    (sampleDense.backpropagate [4]).2.myInputGradients.getD 0 0 =
      (([4] : Matrix1d).getD 0 0 - sampleDense.myOutput.getD 0 0) *
        sampleDense.myActFunc.delta (sampleDense.myOutput.getD 0 0) ∧
    (sampleDense.backpropagate sampleDense.myOutput).2.myInputGradients =
      List.replicate sampleDense.outputSize 0 := by
  have h := dense_backpropagate_output_spec sampleDense [4] (by decide)
  exact ⟨(h.1 (by decide)).1, (h.1 (by decide)).2.2.1 0 (by decide), h.2⟩

/-- C3: for every pair of well-formed dense layers with
`outputSize = nextLayer.inputSize`, the hidden-layer overload of
`backpropagate` succeeds and sets, for each node `i`,
`inputGradients[i] = (Σ_j nextLayer.inputGradients[j] * nextLayer.weights[j][i]) * activation.delta(output[i])`
with `j` ranging over the next layer's output nodes; if the sizes differ it
returns failure and mutates nothing. -/
theorem dense_backpropagate_hidden_spec (d nextLayer : Dense) (hwf : d.WF) :
    (d.outputSize = nextLayer.inputSize →
      (d.backpropagateHidden nextLayer).1 = true ∧
      (d.backpropagateHidden nextLayer).2.myInputGradients.length = d.outputSize ∧
      (∀ i < d.outputSize,
        (d.backpropagateHidden nextLayer).2.myInputGradients.getD i 0 =
          (∑ j ∈ Finset.range nextLayer.outputSize,
              nextLayer.myInputGradients.getD j 0 *
                (nextLayer.myWeights.getD j []).getD i 0) *
            d.myActFunc.delta (d.myOutput.getD i 0)) ∧
      (d.backpropagateHidden nextLayer).2.myBias = d.myBias ∧
      (d.backpropagateHidden nextLayer).2.myWeights = d.myWeights ∧
      (d.backpropagateHidden nextLayer).2.myOutput = d.myOutput) ∧
    (d.outputSize ≠ nextLayer.inputSize →
      d.backpropagateHidden nextLayer = (false, d)) := by
  obtain ⟨-, hgrad, -, -⟩ := hwf
  constructor
  · intro h
    have hc : matchDimensions d.outputSize nextLayer.inputSize = true := by
      simp [matchDimensions, h]
    simp only [Dense.backpropagateHidden, hc, if_true]
    refine ⟨by trivial, ?_, ?_, by trivial, by trivial, by trivial⟩
    · rw [updLoop_length, hgrad]
    · intro i hi
      rw [updLoop_getD_of_lt _ _ _ _ _ hi (hgrad ▸ hi), accLoop_eq_add_sum,
        zero_add]
  · intro h
    have hc : matchDimensions d.outputSize nextLayer.inputSize = false := by
      simp [matchDimensions]
      exact h
    simp [Dense.backpropagateHidden, hc]

/-- Witness for C3: against `sampleNext` (input size 1 = `sampleDense`'s
output size) the hidden overload succeeds with gradient `(2*3)*1 = 6` at node
0, while against `sampleDense` itself (input size 2) it is rejected with the
layer unchanged. -/
theorem dense_backpropagate_hidden_spec_witness :
    (sampleDense.backpropagateHidden sampleNext).1 = true ∧
    (sampleDense.backpropagateHidden sampleNext).2.myInputGradients.getD 0 0 =
      (∑ j ∈ Finset.range sampleNext.outputSize,
          sampleNext.myInputGradients.getD j 0 *
            (sampleNext.myWeights.getD j []).getD 0 0) *
        sampleDense.myActFunc.delta (sampleDense.myOutput.getD 0 0) ∧
    sampleDense.backpropagateHidden sampleDense = (false, sampleDense) := by
  have h := dense_backpropagate_hidden_spec sampleDense sampleNext (by decide)
  have hmis := (dense_backpropagate_hidden_spec sampleDense sampleDense
    (by decide)).2 (by decide)
  exact ⟨(h.1 (by decide)).1, (h.1 (by decide)).2.2.1 0 (by decide), hmis⟩

theorem optLoop_fst (g : Matrix1d) (lr : ℚ) (input : Matrix1d) (m n : Nat)
    (s : Matrix1d × Matrix2d) :
    (optLoop g lr input m n s).1 =
      updLoop 0 (fun i b => b + g.getD i 0 * lr) n s.1 := by
  induction n with
  | zero => rfl
  | succ n ih => simp only [optLoop, updLoop, ih]

theorem optLoop_snd (g : Matrix1d) (lr : ℚ) (input : Matrix1d) (m n : Nat)
    (s : Matrix1d × Matrix2d) :
    (optLoop g lr input m n s).2 =
      updLoop []
        (fun i row =>
          updLoop 0 (fun j w => w + g.getD i 0 * lr * input.getD j 0) m row)
        n s.2 := by
  induction n with
  | zero => rfl
  | succ n ih => simp only [optLoop, updLoop, ih]

/-- C4: for every well-formed dense layer, input of length `inputSize` and
`learningRate > 0`, `optimize` succeeds and updates
`bias[i] += inputGradients[i] * learningRate` and
`weights[i][j] += inputGradients[i] * learningRate * input[j]`, leaving the
output and input gradients untouched; if the input length differs from
`inputSize` or `learningRate ≤ 0` it returns failure and leaves bias and
weights unchanged. -/
theorem dense_optimize_spec (d : Dense) (input : Matrix1d) (learningRate : ℚ)
    (hwf : d.WF) :
    (input.length = d.inputSize → 0 < learningRate →
      (d.optimize input learningRate).1 = true ∧
      (d.optimize input learningRate).2.myBias.length = d.outputSize ∧
      (∀ i < d.outputSize,
        (d.optimize input learningRate).2.myBias.getD i 0 =
          d.myBias.getD i 0 + d.myInputGradients.getD i 0 * learningRate) ∧
      (d.optimize input learningRate).2.myWeights.length = d.outputSize ∧
      (∀ i < d.outputSize, ∀ j < d.inputSize,
        ((d.optimize input learningRate).2.myWeights.getD i []).getD j 0 =
          (d.myWeights.getD i []).getD j 0 +
            d.myInputGradients.getD i 0 * learningRate * input.getD j 0) ∧
      (d.optimize input learningRate).2.myOutput = d.myOutput ∧
      (d.optimize input learningRate).2.myInputGradients = d.myInputGradients) ∧
    (input.length ≠ d.inputSize ∨ learningRate ≤ 0 →
      d.optimize input learningRate = (false, d)) := by
  obtain ⟨hbias, -, hw, hrows⟩ := hwf
  constructor
  · intro hlen hlr
    have hc : (matchDimensions d.inputSize input.length &&
        checkLearningRate learningRate) = true := by
      simp [matchDimensions, checkLearningRate, hlen, not_le.mpr hlr]
    simp only [Dense.optimize, hc, if_true]
    refine ⟨by trivial, ?_, ?_, ?_, ?_, by trivial, by trivial⟩
    · rw [optLoop_fst, updLoop_length, hbias]
    · intro i hi
      rw [optLoop_fst, updLoop_getD_of_lt _ _ _ _ _ hi (hbias ▸ hi)]
    · rw [optLoop_snd, updLoop_length, hw]
    · intro i hi j hj
      rw [optLoop_snd, updLoop_getD_of_lt _ _ _ _ _ hi (hw ▸ hi)]
      have hrow : (d.myWeights.getD i []).length = d.inputSize :=
        hrows _ (getD_mem _ _ (hw ▸ hi) _)
      rw [updLoop_getD_of_lt _ _ _ _ _ hj (hrow ▸ hj)]
  · intro h
    have hc : (matchDimensions d.inputSize input.length &&
        checkLearningRate learningRate) = false := by
      rcases h with h | h
      · have : matchDimensions d.inputSize input.length = false := by
          simp [matchDimensions]
          exact fun hh => absurd hh.symm h
        simp [this]
      · have : checkLearningRate learningRate = false := by
          simp [checkLearningRate, h]
        simp [this]
    simp [Dense.optimize, hc]

/-- Witness for C4 at the sample layer with gradient 4 already stored: with
input `[5, 7]` and learning rate `1/2`, bias becomes `1 + 4*(1/2)` and weight
`[0][1]` becomes `3 + 4*(1/2)*7`; a negative learning rate is rejected with
the layer unchanged. -/
theorem dense_optimize_spec_witness :
    ((sampleDense.backpropagate [4]).2.optimize [5, 7] (1/2)).1 = true ∧
    ((sampleDense.backpropagate [4]).2.optimize [5, 7] (1/2)).2.myBias.getD 0 0 =
      (sampleDense.backpropagate [4]).2.myBias.getD 0 0 +
        (sampleDense.backpropagate [4]).2.myInputGradients.getD 0 0 * (1/2) ∧
    (((sampleDense.backpropagate [4]).2.optimize [5, 7] (1/2)).2.myWeights.getD 0 []).getD 1 0 =
      ((sampleDense.backpropagate [4]).2.myWeights.getD 0 []).getD 1 0 +
        (sampleDense.backpropagate [4]).2.myInputGradients.getD 0 0 * (1/2) *
          ([5, 7] : Matrix1d).getD 1 0 ∧
    sampleDense.optimize [5, 7] (-1) = (false, sampleDense) := by
  have h := dense_optimize_spec (sampleDense.backpropagate [4]).2 [5, 7] (1/2)
    (by decide)
  have hmain := h.1 (by decide) (by norm_num)
  have hmis := (dense_optimize_spec sampleDense [5, 7] (-1) (by decide)).2
    (Or.inr (by norm_num))
  exact ⟨hmain.1, hmain.2.2.1 0 (by decide), hmain.2.2.2.2.1 0 (by decide) 1 (by decide),
    hmis⟩

/-- C6: for every layer variant, calling `feedforward`, `backpropagate` or
`optimize` with a wrongly-sized argument returns failure and leaves every
layer-owned member (`output`, `inputGradients`, and for dense layers also
`weights` and `bias`) exactly as it was before the call. -/
theorem dimension_mismatch_spec :
    (∀ (d : Dense) (input : Matrix1d), input.length ≠ d.inputSize →
      d.feedforward input = (false, d)) ∧
    (∀ (d : Dense) (g : Matrix1d), g.length ≠ d.outputSize →
      d.backpropagate g = (false, d)) ∧
    (∀ d nextLayer : Dense, d.outputSize ≠ nextLayer.inputSize →
      d.backpropagateHidden nextLayer = (false, d)) ∧
    (∀ (d : Dense) (input : Matrix1d) (lr : ℚ), input.length ≠ d.inputSize →
      d.optimize input lr = (false, d)) ∧
    (∀ (f : Flatten) (input : Matrix2d), input.length ≠ f.inputSize →
      f.feedforward input = (false, f)) ∧
    (∀ (f : Flatten) (g : Matrix1d), g.length ≠ f.outputSize →
      f.backpropagate g = (false, f)) ∧
    (∀ (c : Conv) (input : Matrix2d), input.length ≠ c.outputSize →
      c.feedforward input = (false, c)) ∧
    (∀ (c : Conv) (g : Matrix2d), g.length ≠ c.outputSize →
      c.backpropagate g = (false, c)) ∧
    (∀ (p : MaxPool) (input : Matrix2d), input.length ≠ p.myInput.length →
      p.feedforward input = (false, p)) ∧
    (∀ (p : MaxPool) (g : Matrix2d), g.length ≠ p.outputSize →
      p.backpropagate g = (false, p)) := by
  refine ⟨fun d input h => ?_, fun d g h => ?_, fun d n h => ?_,
    fun d input lr h => ?_, fun f input h => ?_, fun f g h => ?_,
    fun c input h => ?_, fun c g h => ?_, fun p input h => ?_, fun p g h => ?_⟩
  · have hc : matchDimensions d.inputSize input.length = false := by
      simp [matchDimensions]; exact fun hh => absurd hh.symm h
    simp [Dense.feedforward, hc]
  · have hc : matchDimensions d.outputSize g.length = false := by
      simp [matchDimensions]; exact fun hh => absurd hh.symm h
    simp [Dense.backpropagate, hc]
  · have hc : matchDimensions d.outputSize n.inputSize = false := by
      simp [matchDimensions]; exact h
    simp [Dense.backpropagateHidden, hc]
  · have hc : matchDimensions d.inputSize input.length = false := by
      simp [matchDimensions]; exact fun hh => absurd hh.symm h
    simp [Dense.optimize, hc]
  · have hc : matchDimensions f.myInputGradients.length input.length = false := by
      simp [matchDimensions]; exact fun hh => absurd hh.symm h
    simp [Flatten.feedforward, hc]
  · have hc : matchDimensions f.myOutput.length g.length = false := by
      simp [matchDimensions]; exact fun hh => absurd hh.symm h
    simp [Flatten.backpropagate, hc]
  · have hc : matchDimensions c.myOutput.length input.length = false := by
      simp [matchDimensions]; exact fun hh => absurd hh.symm h
    simp [Conv.feedforward, hc]
  · have hc : matchDimensions c.myOutput.length g.length = false := by
      simp [matchDimensions]; exact fun hh => absurd hh.symm h
    simp [Conv.backpropagate, hc]
  · have hc : matchDimensions p.myInput.length input.length = false := by
      simp [matchDimensions]; exact fun hh => absurd hh.symm h
    simp [MaxPool.feedforward, hc]
  · have hc : matchDimensions p.myOutput.length g.length = false := by
      simp [matchDimensions]; exact fun hh => absurd hh.symm h
    simp [MaxPool.backpropagate, hc]

/-- Witness for C6: one wrongly-sized call per layer variant, each returning
failure with the layer unchanged. -/
theorem dimension_mismatch_spec_witness :
    sampleDense.feedforward [1] = (false, sampleDense) ∧
    sampleDense.backpropagate [1, 2] = (false, sampleDense) ∧
    sampleDense.backpropagateHidden sampleDense = (false, sampleDense) ∧
    sampleDense.optimize [1] 1 = (false, sampleDense) ∧
    sampleFlatten.feedforward [[1]] = (false, sampleFlatten) ∧
    sampleFlatten.backpropagate [1] = (false, sampleFlatten) ∧
    sampleConv.feedforward [[1]] = (false, sampleConv) ∧
    sampleConv.backpropagate [[1]] = (false, sampleConv) ∧
    sampleMaxPool.feedforward [[1]] = (false, sampleMaxPool) ∧
    sampleMaxPool.backpropagate [[1], [2]] = (false, sampleMaxPool) := by
  have h := dimension_mismatch_spec
  exact ⟨h.1 sampleDense [1] (by decide),
    h.2.1 sampleDense [1, 2] (by decide),
    h.2.2.1 sampleDense sampleDense (by decide),
    h.2.2.2.1 sampleDense [1] 1 (by decide),
    h.2.2.2.2.1 sampleFlatten [[1]] (by decide),
    h.2.2.2.2.2.1 sampleFlatten [1] (by decide),
    h.2.2.2.2.2.2.1 sampleConv [[1]] (by decide),
    h.2.2.2.2.2.2.2.1 sampleConv [[1]] (by decide),
    h.2.2.2.2.2.2.2.2.1 sampleMaxPool [[1]] (by decide),
    h.2.2.2.2.2.2.2.2.2 sampleMaxPool [[1], [2]] (by decide)⟩

/-- C8 counterexample: on the flatten stub of input size 2, `feedforward` with
the square matrix `[[1,2],[3,4]]` succeeds but does NOT set the layer's
output to the row-major concatenation `[1,2,3,4]` — the stub validates
dimensions only and writes nothing, so the output stays `[0,0,0,0]`. -/
theorem flatten_values_counterexample :
    (sampleFlatten.feedforward [[1, 2], [3, 4]]).1 = true ∧
    (sampleFlatten.feedforward [[1, 2], [3, 4]]).2.myOutput ≠
      ([[1, 2], [3, 4]] : Matrix2d).flatten := by
  decide

/-- C8 amended: the flatten stub only validates dimensions.  For a layer
built by the constructor with input size `n`: `feedforward` succeeds exactly
on square matrices with `n` rows, `backpropagate` succeeds exactly on vectors
of length `n²`, neither call writes any member, and `output` and
`inputGradients` keep their constructed all-zero values (so no value
pass-through or round-trip takes place). -/
theorem flatten_stub_spec (n : Nat) (f : Flatten) (h : Flatten.create n = some f) :
    f.inputSize = n ∧
    f.outputSize = n * n ∧
    (∀ input : Matrix2d,
      ((f.feedforward input).1 = true ↔
        input.length = n ∧ isMatrixSquare input = true) ∧
      (f.feedforward input).2 = f) ∧
    (∀ g : Matrix1d,
      ((f.backpropagate g).1 = true ↔ g.length = n * n) ∧
      (f.backpropagate g).2 = f) ∧
    f.myOutput = List.replicate (n * n) 0 ∧
    f.myInputGradients = List.replicate n (List.replicate n 0) := by
  unfold Flatten.create at h
  by_cases hn : n = 0
  · simp [hn] at h
  · simp only [hn, if_false, Option.some.injEq] at h
    subst h
    refine ⟨by simp [Flatten.inputSize], by simp [Flatten.outputSize], ?_, ?_, rfl, rfl⟩
    · intro input
      refine ⟨?_, rfl⟩
      simp only [Flatten.feedforward, matchDimensions, Bool.and_eq_true,
        beq_iff_eq, List.length_replicate]
      exact and_congr_left fun _ => eq_comm
    · intro g
      refine ⟨?_, rfl⟩
      simp only [Flatten.backpropagate, matchDimensions, beq_iff_eq,
        List.length_replicate]
      exact eq_comm

/-- Witness for C8 (amended) at `n = 2`: the square `[[1,2],[3,4]]` is
accepted by `feedforward` without touching the output, a length-4 gradient is
accepted by `backpropagate`, and wrong sizes are rejected. -/
theorem flatten_stub_spec_witness :
    sampleFlatten.inputSize = 2 ∧
    sampleFlatten.outputSize = 4 ∧
    (sampleFlatten.feedforward [[1, 2], [3, 4]]).1 = true ∧
    (sampleFlatten.feedforward [[1, 2], [3, 4]]).2 = sampleFlatten ∧
    (sampleFlatten.backpropagate [1, 2, 3, 4]).1 = true ∧
    (sampleFlatten.backpropagate [1, 2, 3]).1 = false ∧
    sampleFlatten.myOutput = List.replicate 4 0 := by
  have h := flatten_stub_spec 2 sampleFlatten (by decide)
  refine ⟨h.1, h.2.1, ((h.2.2.1 [[1, 2], [3, 4]]).1.mpr (by decide)),
    (h.2.2.1 [[1, 2], [3, 4]]).2, ((h.2.2.2.1 [1, 2, 3, 4]).1.mpr (by decide)),
    ?_, h.2.2.2.2.1⟩
  have hne := (h.2.2.2.1 [1, 2, 3]).1
  by_cases hb : (sampleFlatten.backpropagate [1, 2, 3]).1 = true
  · exact absurd (hne.mp hb) (by decide)
  · simpa using hb

/-- C9 counterexample: `MaxPool::optimize` ignores the learning rate and
returns success even for the non-positive learning rate `-1`, contradicting
the claim that both stub layers fail for every `learningRate ≤ 0`. -/
theorem maxpool_optimize_counterexample :
    (sampleMaxPool.optimize (-1)).1 = true ∧ ¬ (0 : ℚ) < -1 := by
  constructor
  · rfl
  · norm_num

/-- C9 amended: `Conv::optimize` returns success exactly when the learning
rate is positive (and never mutates the layer), while `MaxPool::optimize`
returns success unconditionally, ignoring the learning rate. -/
theorem conv_maxpool_optimize_spec :
    (∀ (c : Conv) (learningRate : ℚ),
      ((c.optimize learningRate).1 = true ↔ 0 < learningRate) ∧
      (c.optimize learningRate).2 = c) ∧
    (∀ (p : MaxPool) (learningRate : ℚ),
      p.optimize learningRate = (true, p)) := by
  refine ⟨fun c lr => ⟨?_, rfl⟩, fun p lr => rfl⟩
  unfold Conv.optimize checkLearningRate
  by_cases hle : (0 : ℚ) ≥ lr
  · rw [if_pos hle]
    simp [not_lt.mpr hle]
  · rw [if_neg hle]
    simp [lt_of_not_ge hle]

theorem cons_set_perm (d : α) (l : List α) :
    ∀ (i : Nat) (x : α), i < l.length →
      (l.getD i d :: l.set i x).Perm (x :: l) := by
  induction l with
  | nil => intro i x h; simp at h
  | cons a t ih =>
    intro i x h
    match i with
    | 0 => exact List.Perm.swap x a t
    | i + 1 =>
      have hit : i < t.length := by simpa using h
      rw [List.getD_cons_succ, List.set_cons_succ]
      have h1 : (t.getD i d :: a :: t.set i x).Perm (a :: (t.getD i d :: t.set i x)) :=
        List.Perm.swap a (t.getD i d) (t.set i x)
      have h2 : (a :: (t.getD i d :: t.set i x)).Perm (a :: (x :: t)) :=
        List.Perm.cons a (ih i x hit)
      have h3 : (a :: x :: t).Perm (x :: a :: t) := List.Perm.swap x a t
      exact h1.trans (h2.trans h3)

theorem set_set_swap_perm (d : α) :
    ∀ (l : List α) (i r : Nat), i < l.length → r < l.length →
      ((l.set i (l.getD r d)).set r (l.getD i d)).Perm l := by
  intro l
  induction l with
  | nil => intro i r hi _; simp at hi
  | cons a t ih =>
    intro i r hi hr
    match i, r with
    | 0, 0 => simp
    | 0, r + 1 =>
      have hrt : r < t.length := by simpa using hr
      have : ((a :: t).set 0 ((a :: t).getD (r + 1) d)).set (r + 1) ((a :: t).getD 0 d)
          = t.getD r d :: t.set r a := rfl
      rw [this]
      exact cons_set_perm d t r a hrt
    | i + 1, 0 =>
      have hit : i < t.length := by simpa using hi
      have : ((a :: t).set (i + 1) ((a :: t).getD 0 d)).set 0 ((a :: t).getD (i + 1) d)
          = t.getD i d :: t.set i a := rfl
      rw [this]
      exact cons_set_perm d t i a hit
    | i + 1, r + 1 =>
      have hit : i < t.length := by simpa using hi
      have hrt : r < t.length := by simpa using hr
      have : ((a :: t).set (i + 1) ((a :: t).getD (r + 1) d)).set (r + 1)
            ((a :: t).getD (i + 1) d)
          = a :: ((t.set i (t.getD r d)).set r (t.getD i d)) := rfl
      rw [this]
      exact List.Perm.cons a (ih i r hit hrt)

theorem shuffleGo_perm (n : Nat) (list : TrainOrderList) (r : Rng)
    (hn : n ≤ list.length) : ((shuffleGo n list r).1).Perm list := by
  induction n with
  | zero => exact List.Perm.refl list
  | succ n ih =>
    have hperm : ((shuffleGo n list r).1).Perm list := ih (by omega)
    have hlen : (shuffleGo n list r).1.length = list.length := hperm.length_eq
    have hpos : 0 < list.length := by omega
    have hin : n < (shuffleGo n list r).1.length := by omega
    have hd : ((shuffleGo n list r).2.uint32 (shuffleGo n list r).1.length).1 <
        (shuffleGo n list r).1.length := by
      unfold Rng.uint32 Rng.next
      exact Nat.mod_lt _ (by omega)
    exact ((set_set_swap_perm 0 (shuffleGo n list r).1 n _ hin hd).trans hperm)

/-- C7: `createTrainOrderList(n)` produces `[0, 1, …, n-1]`, and every call
to `shuffleTrainOrderList` returns a permutation of its input list (all raw
draws are reduced modulo the list length, hence in range), so shuffling
preserves the property of being a permutation of `[0, n)` — no duplicates,
no omissions — for every `n ≥ 0`. -/
theorem train_order_permutation_spec :
    (∀ n : Nat, createTrainOrderList n = List.range n) ∧
    (∀ (list : TrainOrderList) (r : Rng),
      ((shuffleTrainOrderList list r).1).Perm list) ∧
    (∀ (n : Nat) (list : TrainOrderList) (r : Rng),
      list.Perm (List.range n) →
      ((shuffleTrainOrderList list r).1).Perm (List.range n)) := by
  refine ⟨fun n => ?_, fun list r => ?_, fun n list r h => ?_⟩
  · apply List.ext_getElem
    · simp [createTrainOrderList, updLoop_length]
    · intro i hi hrange
      have hlen : i < (List.replicate n (0 : Nat)).length := by
        simpa using (by simpa [List.length_range] using hrange)
      have : (createTrainOrderList n).getD i 0 = i := by
        unfold createTrainOrderList
        rw [updLoop_getD_of_lt _ _ _ _ _ (by simpa using hrange) hlen]
      rw [← getD_eq_getElem _ _ hi 0, this, ← getD_eq_getElem _ _ hrange 0]
      simp [List.getD, List.getElem?_range (by simpa using hrange)]
  · exact shuffleGo_perm list.length list r (Nat.le_refl _)
  · exact (shuffleGo_perm list.length list r (Nat.le_refl _)).trans h

/-- Witness for C7: shuffling `[0, 1, 2]` with a concrete draw stream yields
a permutation of `[0, 3)`. -/
theorem train_order_permutation_spec_witness :
    createTrainOrderList 3 = List.range 3 ∧
    ((shuffleTrainOrderList (createTrainOrderList 3)
      { stream := fun k => k + 2, cursor := 0 }).1).Perm (List.range 3) := by
  have h := train_order_permutation_spec
  exact ⟨h.1 3, h.2.2 3 (createTrainOrderList 3)
    { stream := fun k => k + 2, cursor := 0 } (by rw [h.1 3])⟩

theorem runExamples_append (trainIn : Matrix3d) (trainOut : Matrix2d)
    (lr : ℚ) (xs ys : List Nat) (c : Cnn) :
    runExamples trainIn trainOut lr (xs ++ ys) c =
      if (runExamples trainIn trainOut lr xs c).1 = true then
        runExamples trainIn trainOut lr ys (runExamples trainIn trainOut lr xs c).2
      else runExamples trainIn trainOut lr xs c := by
  induction xs generalizing c with
  | nil => simp [runExamples]
  | cons j rest ih =>
    simp only [List.cons_append, runExamples]
    by_cases h : (stepResult trainIn trainOut lr c j).1 = true
    · simp only [h, if_true]
      exact ih _
    · simp only [Bool.not_eq_true] at h
      simp [h]

theorem trainLoop_bridge (trainIn : Matrix3d) (trainOut : Matrix2d) (lr : ℚ)
    (e : Nat) :
    ∀ (order : TrainOrderList) (c : Cnn) (r : Rng),
      (trainLoop trainIn trainOut lr e order c r).1 =
        (runExamples trainIn trainOut lr (scheduleGo e order r).1 c).1 ∧
      (trainLoop trainIn trainOut lr e order c r).2.1 =
        (runExamples trainIn trainOut lr (scheduleGo e order r).1 c).2 := by
  induction e with
  | zero =>
    intro order c r
    exact ⟨rfl, rfl⟩
  | succ e ih =>
    intro order c r
    simp only [trainLoop, scheduleGo, runExamples_append]
    by_cases h : (runExamples trainIn trainOut lr
        (shuffleTrainOrderList order r).1 c).1 = true
    · simp only [h, if_true]
      exact ih _ _ _
    · simp only [Bool.not_eq_true] at h
      simp [h]

theorem trainLoop_nil (trainIn : Matrix3d) (trainOut : Matrix2d) (lr : ℚ)
    (e : Nat) (c : Cnn) (r : Rng) :
    trainLoop trainIn trainOut lr e [] c r = (true, c, r) := by
  induction e with
  | zero => rfl
  | succ e ih => simpa [trainLoop, shuffleTrainOrderList, shuffleGo, runExamples] using ih

theorem runExamples_false_iff (trainIn : Matrix3d) (trainOut : Matrix2d)
    (lr : ℚ) (order : List Nat) (c : Cnn) :
    (runExamples trainIn trainOut lr order c).1 = false ↔
      ∃ k, k < order.length ∧
        (runExamples trainIn trainOut lr (order.take k) c).1 = true ∧
        (stepResult trainIn trainOut lr
          (runExamples trainIn trainOut lr (order.take k) c).2
          (order.getD k 0)).1 = false := by
  induction order generalizing c with
  | nil => simp [runExamples]
  | cons j rest ih =>
    by_cases h : (stepResult trainIn trainOut lr c j).1 = true
    · have hstepv : runExamples trainIn trainOut lr (j :: rest) c =
          runExamples trainIn trainOut lr rest (stepResult trainIn trainOut lr c j).2 := by
        simp [runExamples, h]
      constructor
      · intro hf
        rw [hstepv] at hf
        obtain ⟨k, hk, hpre, hstep⟩ := (ih _).mp hf
        refine ⟨k + 1, by simpa using hk, ?_, ?_⟩
        · simpa [runExamples, h, List.take_succ_cons] using hpre
        · simpa [runExamples, h, List.take_succ_cons, List.getD_cons_succ] using hstep
      · rintro ⟨k, hk, hpre, hstep⟩
        match k with
        | 0 =>
          rw [List.take_zero] at hpre hstep
          simp only [runExamples, List.getD_cons_zero] at hstep
          exact absurd hstep (by simp [h])
        | k + 1 =>
          have hrest := (ih (stepResult trainIn trainOut lr c j).2).mpr
            ⟨k, by simpa using hk,
              by simpa [runExamples, h, List.take_succ_cons] using hpre,
              by simpa [runExamples, h, List.take_succ_cons, List.getD_cons_succ] using hstep⟩
          rw [hstepv]
          exact hrest
    · have hf : (runExamples trainIn trainOut lr (j :: rest) c).1 = false := by
        simp only [Bool.not_eq_true] at h
        simp [runExamples, h]
      refine ⟨fun _ => ⟨0, by simp, by simp [runExamples], ?_⟩, fun _ => hf⟩
      simp only [List.take_zero, List.getD_cons_zero]
      simpa [runExamples, Bool.not_eq_true] using h

theorem runExamples_singleton (trainIn : Matrix3d) (trainOut : Matrix2d)
    (lr : ℚ) (j : Nat) (c : Cnn) :
    runExamples trainIn trainOut lr [j] c = stepResult trainIn trainOut lr c j := by
  by_cases hs : (stepResult trainIn trainOut lr c j).1 = true
  · simp only [runExamples, hs, if_true]
    rw [← hs]
  · have hsf : (stepResult trainIn trainOut lr c j).1 = false := by simpa using hs
    simp only [runExamples, hsf, Bool.false_eq_true, if_false]
    rw [← hsf]

theorem runExamples_first_failure (trainIn : Matrix3d) (trainOut : Matrix2d)
    (lr : ℚ) (order : List Nat) (c : Cnn) (k : Nat)
    (hk : k < order.length)
    (hpre : (runExamples trainIn trainOut lr (order.take k) c).1 = true)
    (hstep : (stepResult trainIn trainOut lr
      (runExamples trainIn trainOut lr (order.take k) c).2
      (order.getD k 0)).1 = false) :
    runExamples trainIn trainOut lr order c =
      (false, (stepResult trainIn trainOut lr
        (runExamples trainIn trainOut lr (order.take k) c).2
        (order.getD k 0)).2) := by
  have hgd : order.getD k 0 = order[k] := getD_eq_getElem order k hk 0
  have htake1 : order.take (k + 1) = order.take k ++ [order.getD k 0] := by
    rw [List.take_succ, List.getElem?_eq_getElem hk, hgd]
    rfl
  have hpref : runExamples trainIn trainOut lr (order.take (k + 1)) c =
      stepResult trainIn trainOut lr
        (runExamples trainIn trainOut lr (order.take k) c).2 (order.getD k 0) := by
    rw [htake1, runExamples_append, if_pos hpre, runExamples_singleton]
  have hprodeq : stepResult trainIn trainOut lr
      (runExamples trainIn trainOut lr (order.take k) c).2 (order.getD k 0) =
      (false, (stepResult trainIn trainOut lr
        (runExamples trainIn trainOut lr (order.take k) c).2
        (order.getD k 0)).2) := by
    rw [← hstep]
  calc runExamples trainIn trainOut lr order c
      = runExamples trainIn trainOut lr
          (order.take (k + 1) ++ order.drop (k + 1)) c := by
        rw [List.take_append_drop]
    _ = runExamples trainIn trainOut lr (order.take (k + 1)) c := by
        rw [runExamples_append, if_neg]
        rw [hpref, hstep]
        simp
    _ = (false, (stepResult trainIn trainOut lr
          (runExamples trainIn trainOut lr (order.take k) c).2
          (order.getD k 0)).2) := by rw [hpref, hprodeq]

/-- C5: `Cnn::train` performs no training step and returns success when the
epoch count is zero or the paired example set is empty (the invalid-entry
validations only log); otherwise its result and final network state are
those of running the three-phase steps over the flat execution schedule, and
that run returns failure exactly when some executed step — a
feedforward/backpropagate/optimize composite — fails after an all-successful
prefix, in which case execution aborts with the state of that first failing
step. -/
theorem cnn_train_spec :
    (∀ (c : Cnn) (trainIn : Matrix3d) (trainOut : Matrix2d) (lr : ℚ) (r : Rng),
      c.train trainIn trainOut 0 lr r = (true, c, r)) ∧
    (∀ (c : Cnn) (trainIn : Matrix3d) (trainOut : Matrix2d) (e : Nat) (lr : ℚ)
      (r : Rng), min trainIn.length trainOut.length = 0 →
      c.train trainIn trainOut e lr r = (true, c, r)) ∧
    (∀ (c : Cnn) (trainIn : Matrix3d) (trainOut : Matrix2d) (e : Nat) (lr : ℚ)
      (r : Rng),
      (c.train trainIn trainOut e lr r).1 =
        (runExamples trainIn trainOut lr (trainSchedule trainIn trainOut e r) c).1 ∧
      (c.train trainIn trainOut e lr r).2.1 =
        (runExamples trainIn trainOut lr (trainSchedule trainIn trainOut e r) c).2) ∧
    (∀ (c : Cnn) (trainIn : Matrix3d) (trainOut : Matrix2d) (lr : ℚ)
      (order : List Nat),
      ((runExamples trainIn trainOut lr order c).1 = false ↔
        ∃ k, k < order.length ∧
          (runExamples trainIn trainOut lr (order.take k) c).1 = true ∧
          (stepResult trainIn trainOut lr
            (runExamples trainIn trainOut lr (order.take k) c).2
            (order.getD k 0)).1 = false) ∧
      (∀ k, k < order.length →
        (runExamples trainIn trainOut lr (order.take k) c).1 = true →
        (stepResult trainIn trainOut lr
          (runExamples trainIn trainOut lr (order.take k) c).2
          (order.getD k 0)).1 = false →
        runExamples trainIn trainOut lr order c =
          (false, (stepResult trainIn trainOut lr
            (runExamples trainIn trainOut lr (order.take k) c).2
            (order.getD k 0)).2))) := by
  refine ⟨fun c tin tout lr r => rfl, fun c tin tout e lr r h => ?_,
    fun c tin tout e lr r => ?_, fun c tin tout lr order => ?_⟩
  · unfold Cnn.train
    rw [h]
    exact trainLoop_nil tin tout lr e c r
  · exact trainLoop_bridge tin tout lr e _ c r
  · exact ⟨runExamples_false_iff tin tout lr order c,
      fun k hk hpre hstep =>
        runExamples_first_failure tin tout lr order c k hk hpre hstep⟩

/-- Witness for C5: a zero epoch count and an empty example set both return
success without touching the network, and on `sampleCnn` the wrongly-sized
example `[[1]]` makes the first step fail, so a 1-epoch run over it aborts
at step 0. -/
theorem cnn_train_spec_witness :
    sampleCnn.train [[[1]]] [[0]] 0 1 { stream := fun _ => 0, cursor := 0 } =
      (true, sampleCnn, { stream := fun _ => 0, cursor := 0 }) ∧
    sampleCnn.train [] [] 5 1 { stream := fun _ => 0, cursor := 0 } =
      (true, sampleCnn, { stream := fun _ => 0, cursor := 0 }) ∧
    runExamples [[[1]]] [[0]] 1 [0] sampleCnn =
      (false, (stepResult [[[1]]] [[0]] 1
        (runExamples [[[1]]] [[0]] 1 ([0].take 0) sampleCnn).2
        ([0].getD 0 0)).2) := by
  have h := cnn_train_spec
  refine ⟨h.1 sampleCnn [[[1]]] [[0]] 1 _, h.2.1 sampleCnn [] [] 5 1 _ (by simp),
    (h.2.2.2 sampleCnn [[[1]]] [[0]] 1 [0]).2 0 (by simp) (by decide) (by decide)⟩

theorem dense_feedforward_fst_of_len (d : Dense) (input : Matrix1d)
    (h : d.inputSize = input.length) : (d.feedforward input).1 = true := by
  have hc : matchDimensions d.inputSize input.length = true := by
    simp [matchDimensions, h]
  simp [Dense.feedforward, hc]

theorem dense_feedforward_output_length (d : Dense) (input : Matrix1d) :
    (d.feedforward input).2.myOutput.length = d.outputSize := by
  unfold Dense.feedforward
  by_cases hc : matchDimensions d.inputSize input.length = true
  · simp only [hc, if_true]
    exact updLoop_length _ _ _ _
  · have : matchDimensions d.inputSize input.length = false := by simpa using hc
    simp only [this, Bool.false_eq_true, if_false]
    rfl

theorem ffDenseChain_ok (ds : List Dense) :
    ∀ input : Matrix1d, denseChainWF input.length ds →
      (ffDenseChain input ds).1 = true := by
  induction ds with
  | nil => intro input _; rfl
  | cons d rest ih =>
    intro input hwf
    obtain ⟨-, hin, hrest⟩ := hwf
    have h1 : (d.feedforward input).1 = true :=
      dense_feedforward_fst_of_len d input hin
    have h2 : (ffDenseChain (d.feedforward input).2.myOutput rest).1 = true := by
      apply ih
      rw [dense_feedforward_output_length]
      exact hrest
    simp only [ffDenseChain, h1, h2, Bool.and_self]

/-- C10: `Cnn::predict` discards the boolean result of the internal
feedforward pass.  For a well-formed network and an input whose dimensions
do not match the network (wrong row count or not square), `predict` still
returns the last dense layer's previously stored output with the whole
network unchanged — its return value carries no failure indication — while
for a correctly-sized square input the pass succeeds and `predict` returns
the freshly computed output of the final dense layer.  A freshly
constructed network's stored output is all zeros. -/
theorem cnn_predict_spec :
    (∀ (c : Cnn) (input : Matrix2d), c.WF →
      ¬(input.length = c.inputSize ∧ isMatrixSquare input = true) →
      c.predict input = (c.output, c)) ∧
    (∀ (c : Cnn) (input : Matrix2d), c.WF →
      input.length = c.inputSize → isMatrixSquare input = true →
      (c.feedforward input).1 = true ∧
      c.predict input = ((c.feedforward input).2.output, (c.feedforward input).2)) ∧
    (∀ (convInput convKernel poolSize denseOutput : Nat) (denseFunc : ActFunc)
      (r r2 : Rng) (c : Cnn),
      Cnn.create convInput convKernel poolSize denseOutput denseFunc r =
        some (c, r2) →
      c.output = List.replicate denseOutput 0) := by
  refine ⟨fun c input hwf hmis => ?_, fun c input hwf hlen hsq => ?_,
    fun convInput convKernel poolSize denseOutput denseFunc r r2 c h => ?_⟩
  · obtain ⟨-, hco, -, -, -, -, -⟩ := hwf
    have hs1 : (c.myConvLayer.feedforward input).1 = false := by
      unfold Conv.feedforward
      by_cases he : input.length = c.inputSize
      · have hsqf : isMatrixSquare input = false := by
          by_cases hh : isMatrixSquare input = true
          · exact absurd ⟨he, hh⟩ hmis
          · simpa using hh
        simp [hsqf]
      · have hm : matchDimensions c.myConvLayer.myOutput.length input.length = false := by
          simp only [matchDimensions, beq_eq_false_iff_ne, ne_eq]
          rw [hco]
          exact fun hh => he hh.symm
        simp [hm]
    simp [Cnn.predict, Cnn.feedforward, hs1]
  · have hff : (c.feedforward input).1 = true := by
      obtain ⟨hconvsq, hco, hpin, hpsq, hfl, -, hchain⟩ := hwf
      have hs1 : (c.myConvLayer.feedforward input).1 = true := by
        unfold Conv.feedforward
        have hm : matchDimensions c.myConvLayer.myOutput.length input.length = true := by
          simp [matchDimensions, hco, hlen, Cnn.inputSize, Conv.inputSize]
        simp [hm, hsq]
      have hs2 : (c.myPoolLayer.feedforward c.myConvLayer.myOutput).1 = true := by
        unfold MaxPool.feedforward
        have hm : matchDimensions c.myPoolLayer.myInput.length
            c.myConvLayer.myOutput.length = true := by
          simp [matchDimensions, hpin]
        simp [hm, hconvsq]
      have hsF : (c.myFlattenLayer.feedforward c.convOutput).1 = true := by
        unfold Flatten.feedforward Cnn.convOutput
        have hm : matchDimensions c.myFlattenLayer.myInputGradients.length
            c.myPoolLayer.myOutput.length = true := by
          simp [matchDimensions, hfl]
        simp [hm, hpsq]
      have hsD : (ffDenseChain c.myFlattenLayer.myOutput c.myDenseLayers).1 = true :=
        ffDenseChain_ok c.myDenseLayers c.myFlattenLayer.myOutput hchain
      simp [Cnn.feedforward, hs1, hs2, hsF, hsD]
    exact ⟨hff, rfl⟩
  · unfold Cnn.create at h
    cases hconv : Conv.create convInput convKernel with
    | none => rw [hconv, Option.none_bind] at h; cases h
    | some conv =>
      rw [hconv, Option.some_bind] at h
      cases hpool : MaxPool.create conv.outputSize poolSize with
      | none => rw [hpool, Option.none_bind] at h; cases h
      | some pool =>
        rw [hpool, Option.some_bind] at h
        cases hflat : Flatten.create pool.outputSize with
        | none => rw [hflat, Option.none_bind] at h; cases h
        | some flat =>
          rw [hflat, Option.some_bind] at h
          cases hdense : Dense.create flat.outputSize denseOutput denseFunc r with
          | none => rw [hdense, Option.map_none'] at h; cases h
          | some dr =>
            rw [hdense, Option.map_some'] at h
            injection h with hcc
            injection hcc with hcEq hrEq
            subst hcEq
            unfold Dense.create at hdense
            by_cases hdo : denseOutput = 0
            · rw [if_pos hdo] at hdense
              cases hdense
            · rw [if_neg hdo] at hdense
              by_cases hdi : flat.outputSize = 0
              · rw [if_pos hdi] at hdense
                cases hdense
              · rw [if_neg hdi] at hdense
                injection hdense with hdr
                subst hdr
                simp [Cnn.output]

/-- Witness for C10 on `sampleCnn`: the wrongly-sized input `[[1]]` leaves
the network untouched and `predict` hands back the stored output, while the
correctly-sized square `[[1,2],[3,4]]` feeds forward successfully; a freshly
constructed 1-output network stores the all-zero output. -/
theorem cnn_predict_spec_witness :
    sampleCnn.predict [[1]] = (sampleCnn.output, sampleCnn) ∧
    (sampleCnn.feedforward [[1, 2], [3, 4]]).1 = true ∧
    createdCnn.output = List.replicate 1 0 := by
  have h := cnn_predict_spec
  refine ⟨h.1 sampleCnn [[1]] (by decide) (by decide),
    (h.2.1 sampleCnn [[1, 2], [3, 4]] (by decide) (by decide) (by decide)).1,
    h.2.2 2 2 2 1 actNone cnnStream { stream := fun _ => 0, cursor := 2 }
      createdCnn rfl⟩

end ml
